import Mathlib

/-!
Verification of the heuristic AI-response parsing engine of the
CodeAnalyzerBackend repository (src/ai_agent.py, src/main.py).

Strings are modelled as lists of characters (a Python str is a sequence of
code points).  The regular expressions of parse_ai_response are fixed and
simple, so each one is embedded as an explicit deterministic matcher whose
backtracking behaviour coincides with Python's re on these patterns;
character classes \d and \s are modelled by their ASCII parts, which is the
fragment the patterns, prompts and tests exercise.
-/

/-- ASCII part of Python's \s class and of str.strip's default chars. -/
def isPySpace (c : Char) : Bool :=
  c == ' ' || c == '\t' || c == '\n' || c == '\r' || c == '\x0b' || c == '\x0c'

/-- Sentence terminators of the section patterns: the class [.!?]. -/
def isTermC (c : Char) : Bool :=
  c == '.' || c == '!' || c == '?'

/-- Bullet glyphs of the bullet pattern: the class [•\-\*]. -/
def isBulletC (c : Char) : Bool :=
  c == '•' || c == '-' || c == '*'

/-- Case-insensitive prefix test: does cs start with the (lower-case)
keyword kw, comparing text characters lower-cased (re.IGNORECASE)? -/
def startsWithCI : List Char → List Char → Bool
  | [], _ => true
  | _ :: _, [] => false
  | k :: kt, c :: ct => (c.toLower == k) && startsWithCI kt ct

/-- Numeric value of a digit string, as Python's int() on \d{1,3} captures. -/
def natOfDigits (ds : List Char) : Nat :=
  ds.foldl (fun a c => 10 * a + (c.toNat - 48)) 0

/-- Python str.strip(): remove leading and trailing whitespace. -/
def pyStrip (cs : List Char) : List Char :=
  ((cs.dropWhile isPySpace).reverse.dropWhile isPySpace).reverse

/-- Python " ".join on a list of strings. -/
def joinSpace (ms : List (List Char)) : List Char :=
  List.intercalate [' '] ms

/-! ## Score extraction (src/ai_agent.py lines 117-136) -/

/-- Attempt of the pattern (\d{1,3})\s*\/\s*100 at the start of cs.
The greedy \d{1,3} with backtracking succeeds only on the full leading
digit run (a shorter take leaves a digit where '/' or whitespace is
required), and fails when the run is longer than 3. -/
def matchP1At (cs : List Char) : Option Nat :=
  let ds := cs.takeWhile Char.isDigit
  if ds.length = 0 ∨ 3 < ds.length then none
  else
    match (cs.dropWhile Char.isDigit).dropWhile isPySpace with
    | '/' :: r2 =>
      match r2.dropWhile isPySpace with
      | '1' :: '0' :: '0' :: _ => some (natOfDigits ds)
      | _ => none
    | _ => none

/-- Attempt of the pattern (\d{1,3})\s*out of\s*100 (IGNORECASE) at the
start of cs. -/
def matchP2At (cs : List Char) : Option Nat :=
  let ds := cs.takeWhile Char.isDigit
  if ds.length = 0 ∨ 3 < ds.length then none
  else
    let r1 := (cs.dropWhile Char.isDigit).dropWhile isPySpace
    if startsWithCI "out of".data r1 then
      match (r1.drop 6).dropWhile isPySpace with
      | '1' :: '0' :: '0' :: _ => some (natOfDigits ds)
      | _ => none
    else none

/-- Attempt of the pattern kw:?\s*(\d{1,3}) (IGNORECASE) at the start of
cs, for kw one of score, rating, quality.  The greedy \d{1,3} captures the
first min(3, run) leading digits. -/
def matchKWAt (kw : List Char) (cs : List Char) : Option Nat :=
  if startsWithCI kw cs then
    let r := cs.drop kw.length
    let r1 := match r with
      | ':' :: t => t
      | _ => r
    let ds := (r1.dropWhile isPySpace).takeWhile Char.isDigit
    if ds.length = 0 then none else some (natOfDigits (ds.take 3))
  else none

/-- re.search: scan positions left to right, return the first success of
the position matcher m. -/
def searchWith (m : List Char → Option Nat) : List Char → Option Nat
  | [] => none
  | c :: rest =>
    match m (c :: rest) with
    | some n => some n
    | none => searchWith m rest

def searchP1 : List Char → Option Nat := searchWith matchP1At

def searchP2 : List Char → Option Nat := searchWith matchP2At

def searchP3 : List Char → Option Nat := searchWith (matchKWAt "score".data)

def searchP4 : List Char → Option Nat := searchWith (matchKWAt "rating".data)

def searchP5 : List Char → Option Nat := searchWith (matchKWAt "quality".data)

/-- The for-loop over score_patterns: first pattern whose first match is
in [0,100] wins; an out-of-range first match rejects the pattern and the
loop moves to the next pattern; default 0. -/
def extract_score_loop : List (List Char → Option Nat) → List Char → Nat
  | [], _ => 0
  | m :: ms, t =>
    match m t with
    | some n => if n ≤ 100 then n else extract_score_loop ms t
    | none => extract_score_loop ms t

/-- The five score patterns in source priority order. -/
def scorePatternList : List (List Char → Option Nat) :=
  [searchP1, searchP2, searchP3, searchP4, searchP5]

def extract_score (t : List Char) : Nat :=
  extract_score_loop scorePatternList t

/-! ## Recommendation extraction (src/ai_agent.py lines 139-155) -/

/-- The lookahead \d+\.\s* : at least one digit, with the full digit run
followed by a period. -/
def numLookahead (cs : List Char) : Bool :=
  match cs.dropWhile Char.isDigit with
  | '.' :: _ => !(cs.takeWhile Char.isDigit).isEmpty
  | _ => false

/-- Two consecutive newlines. -/
def startsNN : List Char → Bool
  | '\n' :: '\n' :: _ => true
  | _ => false

/-- Stop set of the lazy capture in the numbered pattern:
(?=\d+\.\s*|\Z|\n\n). -/
def stopNum (cs : List Char) : Bool :=
  cs.isEmpty || numLookahead cs || startsNN cs

/-- Stop set of the lazy capture in the bullet pattern:
(?=[•\-\*]\s*|\Z|\n\n). -/
def stopBul : List Char → Bool
  | [] => true
  | c :: rest => isBulletC c || startsNN (c :: rest)

/-- Lazy (.*?) with DOTALL up to a zero-width stop condition: capture the
shortest prefix whose remainder satisfies stop.  Both stop sets hold on
the empty remainder (\Z), so the capture always terminates there. -/
def lazyCapture (stop : List Char → Bool) : List Char → List Char × List Char
  | [] => ([], [])
  | c :: rest =>
    if stop (c :: rest) then ([], c :: rest)
    else
      let p := lazyCapture stop rest
      (c :: p.1, p.2)

/-- Attempt of \d+\.\s*(.*?)(?=\d+\.\s*|\Z|\n\n) at the start of cs:
returns the group-1 capture and the total number of characters consumed
by the match. -/
def matchNumAt (cs : List Char) : Option (List Char × Nat) :=
  let ds := cs.takeWhile Char.isDigit
  if ds.isEmpty then none
  else
    match cs.dropWhile Char.isDigit with
    | '.' :: r2 =>
      let ws := r2.takeWhile isPySpace
      let cap := (lazyCapture stopNum (r2.dropWhile isPySpace)).1
      some (cap, ds.length + 1 + ws.length + cap.length)
    | _ => none

/-- Attempt of [•\-\*]\s*(.*?)(?=[•\-\*]\s*|\Z|\n\n) at the start of cs. -/
def matchBulAt (cs : List Char) : Option (List Char × Nat) :=
  match cs with
  | [] => none
  | c :: rest =>
    if isBulletC c then
      let ws := rest.takeWhile isPySpace
      let cap := (lazyCapture stopBul (rest.dropWhile isPySpace)).1
      some (cap, 1 + ws.length + cap.length)
    else none

/-- re.findall: scan left to right; on a match that consumed n characters
resume scanning right after it (skip the next n-1 characters after the
match's first character); every matcher here consumes at least one
character on success. -/
def scanAll (m : List Char → Option (List Char × Nat)) :
    List Char → Nat → List (List Char)
  | [], _ => []
  | _ :: rest, Nat.succ k => scanAll m rest k
  | c :: rest, 0 =>
    match m (c :: rest) with
    | some (r, n) => r :: scanAll m rest (n - 1)
    | none => scanAll m rest 0

def findAllNum (t : List Char) : List (List Char) :=
  scanAll matchNumAt t 0

def findAllBul (t : List Char) : List (List Char) :=
  scanAll matchBulAt t 0

/-- [rec.strip() for rec in numbered_matches if rec.strip()] -/
def strippedNum (t : List Char) : List (List Char) :=
  ((findAllNum t).map pyStrip).filter (fun r => !r.isEmpty)

/-- [rec.strip() for rec in bullet_matches if rec.strip()] -/
def strippedBul (t : List Char) : List (List Char) :=
  ((findAllBul t).map pyStrip).filter (fun r => !r.isEmpty)

/-- Lines 139-155: extend with numbered matches, then bullet matches; if
any were found, keep the first 10; otherwise the default empty list. -/
def extract_recommendations (t : List Char) : List (List Char) :=
  if (strippedNum t ++ strippedBul t).isEmpty then []
  else (strippedNum t ++ strippedBul t).take 10

/-! ## Section extraction (src/ai_agent.py lines 157-171) -/

/-- Greedy (?:[^.!?]*[.!?]){0,3}: consume up to n further sentences, each
a run of non-terminators ended by a terminator; stop early when no
terminator remains.  Returns the unconsumed remainder. -/
def secExtra : Nat → List Char → List Char
  | 0, cs => cs
  | Nat.succ n, cs =>
    match cs.dropWhile (fun c => !isTermC c) with
    | _ :: r2 => secExtra n r2
    | [] => cs

/-- Attempt of (?i)(?:kw[^.!?]*[.!?](?:[^.!?]*[.!?]){0,3}) at the start of
cs: the whole matched text (findall has no groups here) and its length. -/
def matchSecAt (kw : List Char) (cs : List Char) : Option (List Char × Nat) :=
  if startsWithCI kw cs then
    let r := cs.drop kw.length
    let mid := r.takeWhile (fun c => !isTermC c)
    match r.dropWhile (fun c => !isTermC c) with
    | [] => none
    | _ :: r2 =>
      let n := kw.length + mid.length + 1 + (r2.length - (secExtra 3 r2).length)
      some (cs.take n, n)
  else none

def findAllSec (kw : List Char) (t : List Char) : List (List Char) :=
  scanAll (matchSecAt kw) t 0

/-- Lines 165-171: iterate the category's keywords in order; the first
keyword with any match sets the section to the space-join of all its
matches and stops; otherwise the field keeps its default empty value. -/
def extractSectionLoop : List (List Char) → List Char → List Char
  | [], _ => []
  | k :: ks, t =>
    if (findAllSec k t).isEmpty then extractSectionLoop ks t
    else joinSpace (findAllSec k t)

def archKeywords : List (List Char) :=
  ["architecture".data, "structure".data, "organization".data, "design".data]

def perfKeywords : List (List Char) :=
  ["performance".data, "optimization".data, "speed".data, "efficiency".data]

def securityKeywords : List (List Char) :=
  ["security".data, "vulnerability".data, "risk".data, "protection".data]

def bestPracticeKeywords : List (List Char) :=
  ["best practice".data, "convention".data, "standard".data, "pattern".data]

/-! ## The parser result (src/ai_agent.py lines 101-182) -/

/-- The dictionary returned by parse_ai_response.  The four section fields
are Option because the exception-path dictionary (lines 177-182) does not
contain those keys at all, while the success-path dictionary (lines
107-115) always does; error is Option for the same reason. -/
structure ParsedResult where
  overall_score : Nat
  recommendations : List (List Char)
  architecture_analysis : Option (List Char)
  performance_analysis : Option (List Char)
  security_analysis : Option (List Char)
  best_practices_analysis : Option (List Char)
  raw_response : List Char
  error : Option (List Char)
deriving DecidableEq

/-- The success path of parse_ai_response: every sub-extraction is total,
so for every input the try block runs to completion and returns this
record (no operation in lines 105-173 can raise on a string input). -/
def parse_ai_response (t : List Char) : ParsedResult :=
  ⟨extract_score t, extract_recommendations t,
   some (extractSectionLoop archKeywords t),
   some (extractSectionLoop perfKeywords t),
   some (extractSectionLoop securityKeywords t),
   some (extractSectionLoop bestPracticeKeywords t),
   t, none⟩

/-- The except handler of parse_ai_response (lines 175-182): the returned
dictionary has only overall_score, recommendations, error and
raw_response; the four section keys are absent. -/
def parse_ai_response_onError (msg t : List Char) : ParsedResult :=
  ⟨0, [], none, none, none, none, t, some msg⟩

/-! ## Score blending and fallback score (src/main.py) -/

/-! ### IEEE binary64 model of the blending expression

Line 207 computes int(0.7 * ai_score + 0.3 * basic) in Python float
(IEEE binary64) arithmetic: each literal, conversion, product and sum is
correctly rounded to 53 significant bits (round to nearest, ties to
even), and int() truncates toward zero.  Every value arising here is a
nonnegative dyadic rational, so the computation is modelled exactly with
pairs num / 2^exp and an explicit 53-bit rounding step.  The model is
exact for the operand ranges the program produces (scores in [0,100];
any operand below 2^53 converts to float exactly). -/

/-- Nonnegative dyadic rational num / 2^exp. -/
structure Dyadic where
  num : Nat
  exp : Nat

/-- Exact product of dyadic rationals. -/
def Dyadic.mul (x y : Dyadic) : Dyadic :=
  ⟨x.num * y.num, x.exp + y.exp⟩

/-- Exact sum of dyadic rationals. -/
def Dyadic.add (x y : Dyadic) : Dyadic :=
  if x.exp ≤ y.exp then ⟨x.num * 2 ^ (y.exp - x.exp) + y.num, y.exp⟩
  else ⟨x.num + y.num * 2 ^ (x.exp - y.exp), x.exp⟩

/-- Truncation toward zero, Python's int() on a nonnegative float. -/
def Dyadic.floorNat (x : Dyadic) : Nat :=
  x.num / 2 ^ x.exp

/-- Bit length of a natural number (fuel-based structural recursion; the
fuel 320 covers every value below 2^319, far beyond the at most 107-bit
intermediates of the blending pipeline). -/
def bitLenAux : Nat → Nat → Nat
  | 0, _ => 0
  | Nat.succ fuel, n => if n = 0 then 0 else bitLenAux fuel (n / 2) + 1

def bitLen (n : Nat) : Nat :=
  bitLenAux 320 n

/-- IEEE round to nearest, ties to even, at 53 significant bits: values
of at most 53 bits are exact; otherwise the excess low bits are rounded
off, a tie going to the even candidate.  (The operands in scope are in
the binary64 normal range, so neither subnormals nor overflow occur.) -/
def round53 (x : Dyadic) : Dyadic :=
  if bitLen x.num ≤ 53 then x
  else
    let r := bitLen x.num - 53
    let q := x.num / 2 ^ r
    let rem := x.num % 2 ^ r
    let half := 2 ^ (r - 1)
    if rem < half then ⟨q, x.exp - r⟩
    else if half < rem then ⟨q + 1, x.exp - r⟩
    else if q % 2 = 0 then ⟨q, x.exp - r⟩
    else ⟨q + 1, x.exp - r⟩

/-- The binary64 value of the literal 0.7: 6305039478318694 / 2^53
(hex significand 0x1.6666666666666p-1). -/
def float07 : Dyadic :=
  ⟨6305039478318694, 53⟩

/-- The binary64 value of the literal 0.3: 5404319552844595 / 2^54
(hex significand 0x1.3333333333333p-2). -/
def float03 : Dyadic :=
  ⟨5404319552844595, 54⟩

/-- int(0.7 * ai_score + 0.3 * basic) of line 207, with binary64
semantics: convert each integer to float (a correctly rounded
conversion, exact below 2^53), multiply by the rounded literal with one
rounding, add with one rounding, truncate toward zero.  Validated
against CPython on every pair of scores in [0,100] x [0,100]. -/
def weightedScore (ai basic : Nat) : Nat :=
  (round53 (Dyadic.add
    (round53 (Dyadic.mul (round53 ⟨ai, 0⟩) float07))
    (round53 (Dyadic.mul (round53 ⟨basic, 0⟩) float03)))).floorNat

/-- Python truthiness of `not ai_analysis.get("error")` on line 200: the
key is absent or its value is an empty (falsy) string. -/
def errFalsy (ai : ParsedResult) : Bool :=
  match ai.error with
  | none => true
  | some e => e.isEmpty

/-- Lines 194-213 of analyze_github_repo: the final code_quality.  With
no API key the basic score is returned; with a key, blending happens only
inside the branch requiring no (truthy) error and a nonempty
recommendation list, and only for a positive AI score. -/
def finalQuality (hasKey : Bool) (ai : ParsedResult) (basic : Nat) : Nat :=
  if hasKey then
    if errFalsy ai && !ai.recommendations.isEmpty then
      if 0 < ai.overall_score then weightedScore ai.overall_score basic
      else basic
    else basic
  else basic

/-- Line 135 of analyze_code_quality: min(100, max(60, 75 + hash(...) % 20)).
Python's hash is an arbitrary integer (its value is not derivable from the
repository path alone), so it is universally quantified; Python's % on a
positive modulus is Int.emod. -/
def code_quality_score (h : Int) : Int :=
  min 100 (max 60 (75 + h % 20))

/-! ## Helpers used to state claims about texts containing a substring -/

/-- Exact (case-sensitive) prefix test. -/
def startsWithEq : List Char → List Char → Bool
  | [], _ => true
  | _ :: _, [] => false
  | a :: p, b :: t => (a == b) && startsWithEq p t

/-- Exact substring occurrence test. -/
def containsSub (p : List Char) : List Char → Bool
  | [] => p.isEmpty
  | c :: rest => startsWithEq p (c :: rest) || containsSub p rest

/-- Out-of-range (or absent) first match of a score pattern: the pattern
contributes nothing to the loop. -/
def noneOrBig (o : Option Nat) : Bool :=
  match o with
  | none => true
  | some n => decide (100 < n)

/-! ## Lemmas about stripping -/

theorem dropWhile_head_not (p : Char → Bool) (l : List Char) (c : Char)
    (h : (l.dropWhile p).head? = some c) : p c = false := by
  induction l with
  | nil => simp at h
  | cons a t ih =>
    by_cases hpa : p a
    · rw [List.dropWhile_cons, if_pos hpa] at h
      exact ih h
    · rw [List.dropWhile_cons, if_neg hpa] at h
      simp only [List.head?_cons, Option.some.injEq] at h
      rw [← h]
      exact Bool.not_eq_true _ ▸ (by simpa using hpa)

theorem pyStrip_head_not_space (l : List Char) (c : Char)
    (h : (pyStrip l).head? = some c) : isPySpace c = false := by
  have hsplit :
      ((l.dropWhile isPySpace).reverse.takeWhile isPySpace) ++
        ((l.dropWhile isPySpace).reverse.dropWhile isPySpace) =
      (l.dropWhile isPySpace).reverse :=
    List.takeWhile_append_dropWhile _ _
  have hd2 : l.dropWhile isPySpace =
      pyStrip l ++ ((l.dropWhile isPySpace).reverse.takeWhile isPySpace).reverse := by
    unfold pyStrip
    conv_lhs =>
      rw [← List.reverse_reverse (List.dropWhile isPySpace l), ← hsplit,
        List.reverse_append]
  obtain ⟨r, hr⟩ : ∃ r, pyStrip l = c :: r := by
    cases hps : pyStrip l with
    | nil => rw [hps] at h; simp at h
    | cons x xs =>
      rw [hps] at h
      simp only [List.head?_cons, Option.some.injEq] at h
      exact ⟨xs, by rw [← h]⟩
  have hhead : (l.dropWhile isPySpace).head? = some c := by
    rw [hd2, hr]
    rfl
  exact dropWhile_head_not isPySpace l c hhead

theorem pyStrip_last_not_space (l : List Char) (c : Char)
    (h : (pyStrip l).getLast? = some c) : isPySpace c = false := by
  unfold pyStrip at h
  rw [List.getLast?_reverse] at h
  exact dropWhile_head_not isPySpace _ c h

/-! ## Lemmas about the recommendation extractor -/

theorem extract_recommendations_eq (t : List Char) :
    extract_recommendations t = (strippedNum t ++ strippedBul t).take 10 := by
  unfold extract_recommendations
  by_cases h : (strippedNum t ++ strippedBul t).isEmpty
  · rw [if_pos h, List.isEmpty_iff.mp h]
    rfl
  · rw [if_neg h]

/-- Claim C6: for every input text, the extracted recommendations sequence
has length at most 10 and every entry is a non-empty string with no
leading or trailing whitespace. -/
theorem claim_C6 (t : List Char) :
    (extract_recommendations t).length ≤ 10 ∧
    ∀ r ∈ extract_recommendations t, r ≠ [] ∧
      (∀ c, r.head? = some c → isPySpace c = false) ∧
      (∀ c, r.getLast? = some c → isPySpace c = false) := by
  constructor
  · rw [extract_recommendations_eq]
    exact List.length_take_le 10 _
  · intro r hr
    rw [extract_recommendations_eq] at hr
    have hr2 : r ∈ strippedNum t ++ strippedBul t := (List.take_sublist _ _).mem hr
    have main : ∀ L : List (List Char),
        r ∈ (L.map pyStrip).filter (fun x => !x.isEmpty) →
        r ≠ [] ∧ (∀ c, r.head? = some c → isPySpace c = false) ∧
          (∀ c, r.getLast? = some c → isPySpace c = false) := by
      intro L hL
      obtain ⟨hmem, hne⟩ := List.mem_filter.mp hL
      obtain ⟨x, _, hx⟩ := List.mem_map.mp hmem
      refine ⟨?_, ?_, ?_⟩
      · intro hnil
        rw [hnil] at hne
        simp at hne
      · intro c hc
        rw [← hx] at hc
        exact pyStrip_head_not_space x c hc
      · intro c hc
        rw [← hx] at hc
        exact pyStrip_last_not_space x c hc
    rcases List.mem_append.mp hr2 with h | h
    · exact main _ (by simpa [strippedNum] using h)
    · exact main _ (by simpa [strippedBul] using h)

/-- Witness for claim C6 at the text "1. Add tests\n2. Improve docs". -/
theorem claim_C6_witness :
    (extract_recommendations "1. Add tests\n2. Improve docs".data).length ≤ 10 ∧
    ("Add tests".data ≠ [] ∧
      (∀ c, "Add tests".data.head? = some c → isPySpace c = false) ∧
      (∀ c, "Add tests".data.getLast? = some c → isPySpace c = false)) :=
  ⟨(claim_C6 "1. Add tests\n2. Improve docs".data).1,
   (claim_C6 "1. Add tests\n2. Improve docs".data).2 "Add tests".data (by decide)⟩

/-- Claim C7: both strategies run unconditionally; the output is the
numbered-list matches followed by the bullet-list matches (each stripped,
empties dropped), truncated to 10 afterwards - not an exclusive choice. -/
theorem claim_C7 (t : List Char) :
    extract_recommendations t =
      (((findAllNum t).map pyStrip).filter (fun r => !r.isEmpty) ++
       ((findAllBul t).map pyStrip).filter (fun r => !r.isEmpty)).take 10 := by
  rw [extract_recommendations_eq]
  rfl

/-! ## Lemmas about the score extractor -/

theorem extract_score_loop_le (ps : List (List Char → Option Nat)) (t : List Char) :
    extract_score_loop ps t ≤ 100 := by
  induction ps with
  | nil => simp [extract_score_loop]
  | cons m ms ih =>
    cases hm : m t with
    | none => simpa [extract_score_loop, hm] using ih
    | some n =>
      by_cases h : n ≤ 100
      · simp [extract_score_loop, hm, h]
      · simpa [extract_score_loop, hm, h] using ih

theorem extract_score_loop_skip (m : List Char → Option Nat)
    (ms : List (List Char → Option Nat)) (t : List Char)
    (h : noneOrBig (m t) = true) :
    extract_score_loop (m :: ms) t = extract_score_loop ms t := by
  cases hm : m t with
  | none => simp [extract_score_loop, hm]
  | some n =>
    rw [hm] at h
    simp only [noneOrBig, decide_eq_true_eq] at h
    simp [extract_score_loop, hm, Nat.not_le.mpr h]

/-- Claim C5: every extracted score lies in [0,100]; a pattern whose
first match captures an out-of-range number is rejected and the loop
continues with the next pattern (never with the next match of the same
pattern); if every pattern's first match is absent or out of range the
score is 0. -/
theorem claim_C5 (t : List Char) :
    extract_score t ≤ 100 ∧
    (∀ (m : List Char → Option Nat) (ms : List (List Char → Option Nat)) (n : Nat),
      m t = some n → 100 < n →
      extract_score_loop (m :: ms) t = extract_score_loop ms t) ∧
    (noneOrBig (searchP1 t) = true → noneOrBig (searchP2 t) = true →
     noneOrBig (searchP3 t) = true → noneOrBig (searchP4 t) = true →
     noneOrBig (searchP5 t) = true → extract_score t = 0) := by
  refine ⟨extract_score_loop_le _ t, ?_, ?_⟩
  · intro m ms n h1 h2
    exact extract_score_loop_skip m ms t (by simp [noneOrBig, h1, h2])
  · intro h1 h2 h3 h4 h5
    unfold extract_score scorePatternList
    rw [extract_score_loop_skip _ _ _ h1, extract_score_loop_skip _ _ _ h2,
      extract_score_loop_skip _ _ _ h3, extract_score_loop_skip _ _ _ h4,
      extract_score_loop_skip _ _ _ h5]
    rfl

/-- Witness for claim C5 at "187/100 quality: 999": pattern 1's first
match captures 187 (rejected), pattern 5's captures 999 (rejected), the
others have no match, so the score is 0. -/
theorem claim_C5_witness :
    extract_score "187/100 quality: 999".data ≤ 100 ∧
    extract_score_loop (searchP1 :: [searchP2, searchP3, searchP4, searchP5])
        "187/100 quality: 999".data =
      extract_score_loop [searchP2, searchP3, searchP4, searchP5]
        "187/100 quality: 999".data ∧
    extract_score "187/100 quality: 999".data = 0 :=
  ⟨(claim_C5 "187/100 quality: 999".data).1,
   (claim_C5 "187/100 quality: 999".data).2.1 searchP1
     [searchP2, searchP3, searchP4, searchP5] 187 (by decide) (by decide),
   (claim_C5 "187/100 quality: 999".data).2.2 (by decide) (by decide)
     (by decide) (by decide) (by decide)⟩

/-! ## Lemmas for claim C4 -/

theorem matchP1At_nonDigit (c : Char) (l : List Char)
    (h : c.isDigit = false) : matchP1At (c :: l) = none := by
  unfold matchP1At
  simp [List.takeWhile_cons, h]

theorem searchWith_append_of_none (m : List Char → Option Nat) (p l : List Char)
    (h : ∀ c ∈ p, ∀ t, m (c :: t) = none) :
    searchWith m (p ++ l) = searchWith m l := by
  induction p with
  | nil => rfl
  | cons c p' ih =>
    have hstep : searchWith m (c :: (p' ++ l)) = searchWith m (p' ++ l) := by
      simp [searchWith, h c (List.mem_cons_self c p') (p' ++ l)]
    simpa using hstep.trans (ih (fun c' hc' t => h c' (List.mem_cons_of_mem c hc') t))

theorem matchP1At_block (s : List Char) :
    matchP1At ('8' :: '7' :: '/' :: '1' :: '0' :: '0' :: s) = some 87 := rfl

theorem searchP1_block (s : List Char) :
    searchP1 ('8' :: '7' :: '/' :: '1' :: '0' :: '0' :: s) = some 87 := by
  unfold searchP1
  simp [searchWith, matchP1At_block s]

/-- Claim C4 (amended): for a text of the shape p ++ "87/100" ++ s in
which the prefix p contains no digit (so that the occurrence of "87/100"
is the first match of the first pattern and its capture is 87, not a
longer number), the extracted score is 87. -/
theorem claim_C4_amended (p s : List Char)
    (hp : ∀ c ∈ p, c.isDigit = false) :
    extract_score (p ++ "87/100".data ++ s) = 87 := by
  have hassoc : p ++ "87/100".data ++ s =
      p ++ ('8' :: '7' :: '/' :: '1' :: '0' :: '0' :: s) := by
    rw [List.append_assoc]
    rfl
  rw [hassoc]
  have h1 : searchP1 (p ++ ('8' :: '7' :: '/' :: '1' :: '0' :: '0' :: s)) = some 87 := by
    unfold searchP1
    rw [searchWith_append_of_none matchP1At p _
      (fun c hc t => matchP1At_nonDigit c t (hp c hc))]
    exact searchP1_block s
  unfold extract_score scorePatternList
  simp [extract_score_loop, h1]

/-- Witness for the amended claim C4. -/
theorem claim_C4_amended_witness :
    extract_score ("x ".data ++ "87/100".data ++ " y".data) = 87 :=
  claim_C4_amended "x ".data " y".data (by decide)

/-- Counterexample to claim C4 as stated: the text "187/100" contains the
substring "87/100", yet the first pattern's first match captures 187,
which is rejected as out of range, no other pattern matches, and the
extracted score is 0, not 87. -/
theorem claim_C4_counterexample :
    containsSub "87/100".data "187/100".data = true ∧
    extract_score "187/100".data = 0 := by decide

/-! ## Claim C10 -/

/-- Claim C10: the fallback code_quality score is always in [60,100]
(the hash term is reduced modulo 20 and the result clamped by max and
min); the hash value is universally quantified. -/
theorem claim_C10 (h : Int) :
    60 ≤ code_quality_score h ∧ code_quality_score h ≤ 100 := by
  unfold code_quality_score
  exact ⟨le_min (by norm_num) (le_max_left 60 _), min_le_left 100 _⟩

/-! ## Claims C9 and C1 -/

/-- Claim C9: on both the success path and the exception path, the
raw_response field equals the input verbatim. -/
theorem claim_C9 (t msg : List Char) :
    (parse_ai_response t).raw_response = t ∧
    (parse_ai_response_onError msg t).raw_response = t :=
  ⟨rfl, rfl⟩

/-- Counterexample to claim C1 as stated: the exception-path record does
not contain the four section-analysis fields at all (they are absent,
not present with empty value), contrary to "all four section-analysis
fields empty". -/
theorem claim_C1_counterexample :
    (parse_ai_response_onError "boom".data "some text".data).architecture_analysis
      = none ∧
    (parse_ai_response_onError "boom".data "some text".data).architecture_analysis
      ≠ some [] ∧
    (parse_ai_response_onError "boom".data "some text".data).performance_analysis
      = none ∧
    (parse_ai_response_onError "boom".data "some text".data).security_analysis
      = none ∧
    (parse_ai_response_onError "boom".data "some text".data).best_practices_analysis
      = none := by
  refine ⟨rfl, ?_, rfl, rfl, rfl⟩
  simp [parse_ai_response_onError]

/-- Claim C1 (amended): parse_ai_response always returns normally (the
success path is total and never sets the error field); the exception
handler's record has overall_score 0, recommendations empty, raw_response
verbatim and the error descriptor populated, and omits the four
section-analysis fields entirely. -/
theorem claim_C1_amended (t msg : List Char) :
    (parse_ai_response t).error = none ∧
    (parse_ai_response_onError msg t).overall_score = 0 ∧
    (parse_ai_response_onError msg t).recommendations = [] ∧
    (parse_ai_response_onError msg t).raw_response = t ∧
    (parse_ai_response_onError msg t).error = some msg ∧
    (parse_ai_response_onError msg t).architecture_analysis = none ∧
    (parse_ai_response_onError msg t).performance_analysis = none ∧
    (parse_ai_response_onError msg t).security_analysis = none ∧
    (parse_ai_response_onError msg t).best_practices_analysis = none :=
  ⟨rfl, rfl, rfl, rfl, rfl, rfl, rfl, rfl, rfl⟩

/-! ## Claim C3 -/

/-- Spot checks of the binary64 blending model against CPython: at
(97,87) the program computes 93 where exact rational arithmetic would
give floor of 940/10 = 94, so the rounding model captures the float
behaviour; (50,80) gives 59 and (10,90) gives 34 on both sides. -/
theorem weightedScore_binary64_checks :
    weightedScore 97 87 = 93 ∧ (7 * 97 + 3 * 87) / 10 = 94 ∧
    weightedScore 50 80 = 59 ∧ weightedScore 10 90 = 34 := by decide

/-- Counterexample to claim C3 as stated: an AI analysis with nonzero
overall_score 50 but an empty recommendation list is not blended - the
basic score 80 is returned unchanged instead of the weighted average 59.
A nonzero score is therefore not the only condition governing blending. -/
theorem claim_C3_counterexample :
    finalQuality true ⟨50, [], some [], some [], some [], some [], [], none⟩ 80
      ≠ weightedScore 50 80 ∧
    finalQuality true ⟨50, [], some [], some [], some [], some [], [], none⟩ 80
      = 80 ∧
    weightedScore 50 80 = 59 := by decide

/-- Claim C3 (amended): with an API key, the final code_quality is the
weighted average int(0.7*ai + 0.3*basic) exactly when the AI analysis has
no truthy error, a nonempty recommendation list, and a nonzero
overall_score; in every other case (including zero AI score, and no API
key) the independently computed fallback score is used unchanged. -/
theorem claim_C3_amended (ai : ParsedResult) (b : Nat) :
    finalQuality true ai b =
      (if errFalsy ai = true ∧ ai.recommendations ≠ [] ∧ 0 < ai.overall_score
        then weightedScore ai.overall_score b else b) ∧
    finalQuality false ai b = b := by
  refine ⟨?_, rfl⟩
  unfold finalQuality
  by_cases h1 : errFalsy ai = true
  · by_cases h2 : ai.recommendations.isEmpty = true
    · have hrec : ai.recommendations = [] := List.isEmpty_iff.mp h2
      simp [h1, h2, hrec]
    · have hne : ai.recommendations ≠ [] := by
        intro hh
        rw [hh] at h2
        simp at h2
      by_cases h3 : 0 < ai.overall_score
      · simp [h1, h2, h3, hne]
      · simp [h1, h2, h3, hne]
  · have h1' : errFalsy ai = false := by
      revert h1
      cases errFalsy ai <;> simp
    simp [h1, h1']

/-! ## Lemmas about the section extractor -/

theorem startsWithCI_take (kw : List Char) :
    ∀ (cs : List Char) (n : Nat), startsWithCI kw cs = true →
      kw.length ≤ n → startsWithCI kw (cs.take n) = true := by
  induction kw with
  | nil => intro cs n _ _; rfl
  | cons k kt ih =>
    intro cs n h hn
    cases cs with
    | nil => simp [startsWithCI] at h
    | cons c ct =>
      cases n with
      | zero => simp at hn
      | succ n' =>
        simp only [startsWithCI, Bool.and_eq_true] at h
        simp only [List.take_succ_cons, startsWithCI, Bool.and_eq_true]
        exact ⟨h.1, ih ct n' h.2 (Nat.le_of_succ_le_succ (by simpa using hn))⟩

theorem matchSecAt_inv (kw cs r : List Char) (n : Nat)
    (h : matchSecAt kw cs = some (r, n)) :
    r = cs.take n ∧ kw.length ≤ n ∧ startsWithCI kw cs = true := by
  by_cases hs : startsWithCI kw cs = true
  · simp only [matchSecAt, if_pos hs] at h
    cases hd : (cs.drop kw.length).dropWhile (fun c => !isTermC c) with
    | nil =>
      rw [hd] at h
      simp at h
    | cons a r2 =>
      rw [hd] at h
      simp only [Option.some.injEq, Prod.mk.injEq] at h
      obtain ⟨h1, h2⟩ := h
      refine ⟨?_, ?_, hs⟩
      · rw [← h2]
        exact h1.symm
      · rw [← h2]
        omega
  · simp only [matchSecAt, if_neg hs] at h
    exact absurd h (by simp)

theorem scanAll_mem_of (f : List Char → Option (List Char × Nat))
    (P : List Char → Prop)
    (hf : ∀ cs r n, f cs = some (r, n) → P r) :
    ∀ (cs : List Char) (k : Nat) (r : List Char), r ∈ scanAll f cs k → P r := by
  intro cs
  induction cs with
  | nil =>
    intro k r hr
    simp [scanAll] at hr
  | cons c rest ih =>
    intro k r hr
    cases k with
    | succ k' => exact ih k' r (by simpa [scanAll] using hr)
    | zero =>
      rw [scanAll] at hr
      cases hm : f (c :: rest) with
      | none =>
        rw [hm] at hr
        exact ih 0 r hr
      | some v =>
        rw [hm] at hr
        obtain ⟨vr, vn⟩ := v
        simp only [List.mem_cons] at hr
        rcases hr with hr | hr
        · subst hr
          exact hf _ _ _ hm
        · exact ih _ r hr

theorem extractSectionLoop_append (ks1 : List (List Char)) (k : List Char)
    (ks2 : List (List Char)) (t : List Char)
    (h1 : ∀ x ∈ ks1, findAllSec x t = [])
    (h2 : findAllSec k t ≠ []) :
    extractSectionLoop (ks1 ++ k :: ks2) t = joinSpace (findAllSec k t) := by
  induction ks1 with
  | nil =>
    simp only [List.nil_append, extractSectionLoop]
    rw [if_neg (by simpa [List.isEmpty_iff] using h2)]
  | cons x xs ih =>
    simp only [List.cons_append, extractSectionLoop]
    rw [if_pos (by simp [h1 x (List.mem_cons_self x xs)])]
    exact ih (fun y hy => h1 y (List.mem_cons_of_mem x hy))

theorem extractSectionLoop_nil_of (ks : List (List Char)) (t : List Char)
    (h : ∀ x ∈ ks, findAllSec x t = []) :
    extractSectionLoop ks t = [] := by
  induction ks with
  | nil => rfl
  | cons x xs ih =>
    simp only [extractSectionLoop]
    rw [if_pos (by simp [h x (List.mem_cons_self x xs)])]
    exact ih (fun y hy => h y (List.mem_cons_of_mem x hy))

/-- Claim C2 (amended): keywords are tried in order and the first keyword
whose anchored pattern has at least one match wins (later keywords are
not tried); the section value is the single-space join of the matches,
scanned left to right without overlap; each excerpt starts at the keyword
occurrence itself (not at the start of the sentence containing it) and a
keyword occurrence matches only if a sentence terminator follows it. -/
theorem claim_C2_amended (t : List Char) (ks1 ks2 : List (List Char))
    (k : List Char)
    (h1 : ∀ x ∈ ks1, findAllSec x t = [])
    (h2 : findAllSec k t ≠ []) :
    extractSectionLoop (ks1 ++ k :: ks2) t = joinSpace (findAllSec k t) ∧
    ∀ m ∈ findAllSec k t, startsWithCI k m = true := by
  refine ⟨extractSectionLoop_append ks1 k ks2 t h1 h2, ?_⟩
  intro m hm
  refine scanAll_mem_of (matchSecAt k) (fun r => startsWithCI k r = true)
    ?_ t 0 m hm
  intro cs r n hr
  obtain ⟨hr1, hr2, hr3⟩ := matchSecAt_inv k cs r n hr
  rw [hr1]
  exact startsWithCI_take k cs n hr3 hr2

/-- Witness for the amended claim C2: in "Bad design here. More text. End."
the first three architecture keywords have no match, "design" wins, and
its single excerpt starts at the keyword occurrence. -/
theorem claim_C2_witness :
    extractSectionLoop
        (["architecture".data, "structure".data, "organization".data] ++
          "design".data :: [])
        "Bad design here. More text. End.".data =
      joinSpace (findAllSec "design".data "Bad design here. More text. End.".data) ∧
    startsWithCI "design".data "design here. More text. End.".data = true :=
  ⟨(claim_C2_amended "Bad design here. More text. End.".data
      ["architecture".data, "structure".data, "organization".data] []
      "design".data (by decide) (by decide)).1,
   (claim_C2_amended "Bad design here. More text. End.".data
      ["architecture".data, "structure".data, "organization".data] []
      "design".data (by decide) (by decide)).2
     "design here. More text. End.".data (by decide)⟩

/-- Counterexample to claim C2 as stated: for the architecture category on
"Bad design here. More text. End." the matching keyword is "design", whose
only occurrence lies in the sentence "Bad design here."; the claim's
"sentence containing that occurrence plus up to 3 following sentences"
would be the whole text, but the code extracts from the keyword itself,
dropping the "Bad " that precedes it within its sentence. -/
theorem claim_C2_counterexample :
    extractSectionLoop archKeywords "Bad design here. More text. End.".data =
      "design here. More text. End.".data ∧
    extractSectionLoop archKeywords "Bad design here. More text. End.".data ≠
      "Bad design here. More text. End.".data := by decide

/-- Claim C8: on any input where no score pattern, no recommendation
pattern and no section keyword matches (the empty string included),
parse_ai_response returns the all-default record with raw_response equal
to the input and no error descriptor. -/
theorem claim_C8 (t : List Char)
    (h1 : searchP1 t = none) (h2 : searchP2 t = none)
    (h3 : searchP3 t = none) (h4 : searchP4 t = none)
    (h5 : searchP5 t = none)
    (h6 : findAllNum t = []) (h7 : findAllBul t = [])
    (h8 : ∀ k ∈ archKeywords ++ perfKeywords ++ securityKeywords ++
      bestPracticeKeywords, findAllSec k t = []) :
    parse_ai_response t = ⟨0, [], some [], some [], some [], some [], t, none⟩ := by
  have hs : extract_score t = 0 := by
    unfold extract_score scorePatternList
    simp [extract_score_loop, h1, h2, h3, h4, h5]
  have hr : extract_recommendations t = [] := by
    unfold extract_recommendations strippedNum strippedBul
    simp [h6, h7]
  have harch : extractSectionLoop archKeywords t = [] :=
    extractSectionLoop_nil_of _ _ (fun x hx => h8 x (by simp [hx]))
  have hperf : extractSectionLoop perfKeywords t = [] :=
    extractSectionLoop_nil_of _ _ (fun x hx => h8 x (by simp [hx]))
  have hsec : extractSectionLoop securityKeywords t = [] :=
    extractSectionLoop_nil_of _ _ (fun x hx => h8 x (by simp [hx]))
  have hbp : extractSectionLoop bestPracticeKeywords t = [] :=
    extractSectionLoop_nil_of _ _ (fun x hx => h8 x (by simp [hx]))
  unfold parse_ai_response
  rw [hs, hr, harch, hperf, hsec, hbp]

/-- Witness for claim C8 at the empty input. -/
theorem claim_C8_witness :
    parse_ai_response [] = ⟨0, [], some [], some [], some [], some [], [], none⟩ :=
  claim_C8 [] (by decide) (by decide) (by decide) (by decide) (by decide)
    (by decide) (by decide) (by decide)
